import Mathlib

/-!
Verification of the core of a minimal Linux file-descriptor library.

The development shallowly embeds the two source files of the repository:

* `raw/riscv64.rs` — the register-level call-invocation layer
  (`syscall0` … `syscall6`) and the standard result decoder
  (`unpack_standard_result`);
* `linux-io/src/lib.rs` — the `File` abstraction (`read`, `write`,
  `seek`, `sync`, `close`, drop), the `SeekFrom` and `Error` data types.

Machine integers are modelled as `Nat`/`Int` with explicit reductions
modulo `2 ^ w` where the source performs a cast.  Kernel calls are
modelled by an explicit oracle: each `File` operation is a pure function
of an oracle `K : KernelCall → Nat` giving the raw result word of each
call, and it returns both its Rust result and the list of kernel calls
it issued, so that facts such as "issues the close call exactly once"
or "issues no close call" are directly statable.
-/

namespace LinuxSafe

/-! ## Machine-integer casts

Two's-complement reinterpretations used by the Rust source
(`as i64`, `as u64`, `as i32`, wrapping `i32` negation). -/

/-- Reinterpret a `u64` word (a `Nat` below `2 ^ 64`) as an `i64`. -/
def i64OfU64 (v : Nat) : Int :=
  if v % 2 ^ 64 < 2 ^ 63 then ((v % 2 ^ 64 : Nat) : Int)
  else ((v % 2 ^ 64 : Nat) : Int) - 2 ^ 64

/-- Reinterpret an `i64` value as a `u64` word (Rust `as u64`). -/
def u64OfI64 (x : Int) : Nat :=
  (x % 2 ^ 64).toNat

/-- Truncate a `u64` word to `i32` (Rust `as i32`): keep the low 32 bits
and reinterpret them as a signed 32-bit value. -/
def i32OfU64 (v : Nat) : Int :=
  if v % 2 ^ 32 < 2 ^ 31 then ((v % 2 ^ 32 : Nat) : Int)
  else ((v % 2 ^ 32 : Nat) : Int) - 2 ^ 32

/-- Wrapping negation on `i32` (Rust unary minus on `i32`). -/
def i32Neg (x : Int) : Int :=
  ((-x + 2 ^ 31) % 2 ^ 32) - 2 ^ 31

/-! ## Result decoder (`raw/riscv64.rs`, `unpack_standard_result`)

```rust
pub fn unpack_standard_result(raw: V) -> Result<V, i32> {
    if (raw as u64) >= ((-4095 as i64) as u64) {
        let err = -(raw as i32);
        Err(err)
    } else {
        Ok(raw)
    }
}
```
`V = u64` on riscv64, and `(-4095 as i64) as u64 = 2 ^ 64 - 4095`. -/

/-- The riscv64 standard result decoder.  `raw` is the raw `u64` result
word; the error branch carries the `i32` kernel error code. -/
def unpack_standard_result (raw : Nat) : Except Int Nat :=
  if 2 ^ 64 - 4095 ≤ raw then Except.error (i32Neg (i32OfU64 raw))
  else Except.ok raw

/-! ## Sanity checks on concrete words -/

example : unpack_standard_result (2 ^ 64 - 1) = Except.error 1 := rfl
example : unpack_standard_result (2 ^ 64 - 4095) = Except.error 4095 := rfl
example : unpack_standard_result (2 ^ 64 - 4096) = Except.ok (2 ^ 64 - 4096) := rfl
example : unpack_standard_result 0 = Except.ok 0 := rfl
example : unpack_standard_result (2 ^ 63 - 1) = Except.ok (2 ^ 63 - 1) := rfl

/-! ## Error type (`linux-io/src/lib.rs`)

```rust
pub struct Error(pub i32);
impl Error { pub const fn new(raw: i32) -> Self { Self(raw) } }
impl From<i32> for Error { fn from(value: i32) -> Self { Self::new(value) } }
```
-/

/-- An error code directly from the kernel (`pub struct Error(pub i32)`). -/
structure Error where
  raw : Int
deriving DecidableEq, Repr

/-- Rust `Error::new` / `From<i32> for Error`: wrap the raw `i32` code. -/
def Error.new (raw : Int) : Error := ⟨raw⟩

/-! ## SeekFrom (`linux-io/src/lib.rs`)

```rust
pub enum SeekFrom { Start(u64), End(i64), Current(i64) }
```
`Start` carries a `u64` (a `Nat` below `2 ^ 64`); `End` and `Current`
carry an `i64` (an `Int` in the signed 64-bit range). -/

/-- Starting point and offset for `File::seek`. -/
inductive SeekFrom where
  | Start (v : Nat)
  | End (v : Int)
  | Current (v : Int)
deriving DecidableEq, Repr

/-- Modelled from the spec: the raw origin codes `SEEK_SET`, `SEEK_CUR`
and `SEEK_END` are imported by `linux-io` from the `linux_unsafe` crate,
whose constant tables are not part of the two source files; these are
the standard Linux values for the set-from-start, from-current and
from-end origins. -/
def SEEK_SET : Int := 0

/-- Modelled from the spec: see `SEEK_SET`. -/
def SEEK_CUR : Int := 1

/-- Modelled from the spec: see `SEEK_SET`. -/
def SEEK_END : Int := 2

/-- Rust `SeekFrom::for_raw_offset`: the payload converted to a raw `loff_t`
(signed 64-bit) offset.  `Start(v)` is a `u64` cast with `as loff_t`
(two's-complement reinterpretation); `End`/`Current` already hold `i64`. -/
def SeekFrom.for_raw_offset : SeekFrom → Int
  | .Start v => i64OfU64 v
  | .End v => v
  | .Current v => v

/-- Rust `SeekFrom::for_raw_whence`: the raw origin code for the variant. -/
def SeekFrom.for_raw_whence : SeekFrom → Int
  | .Start _ => SEEK_SET
  | .End _ => SEEK_END
  | .Current _ => SEEK_CUR

/-- Rust `SeekFrom::for_raw_uwhence`: the origin code cast to an unsigned
word (`as uint`), used by the 32-bit `_llseek` path. -/
def SeekFrom.for_raw_uwhence (s : SeekFrom) : Nat :=
  (s.for_raw_whence % 2 ^ 32).toNat

/-! ## Kernel-call oracle model

Each `File` operation issues kernel calls through the `linux_unsafe`
wrappers.  We record the calls issued as an explicit trace, and model
the kernel itself as an oracle `K : KernelCall → Nat` giving the raw
result word of each call (plus, for `_llseek`, an oracle for the 64-bit
value the kernel writes through the out-parameter). -/

/-- A kernel call issued by a `File` operation, with the argument
values the source passes to the corresponding `linux_unsafe` wrapper. -/
inductive KernelCall where
  | close (fd : Int)
  | read (fd : Int) (bufLen : Nat)
  | write (fd : Int) (bufLen : Nat)
  | lseek (fd : Int) (offset : Int) (whence : Int)
  | llseek (fd : Int) (offHigh : Nat) (offLow : Nat) (whence : Nat)
  | syncfs (fd : Int)
deriving DecidableEq, Repr

/-! ## File abstraction (`linux-io/src/lib.rs`)

```rust
pub struct File { fd: linux_unsafe::int }
```
Each operation below returns its Rust result paired with the list of
kernel calls it issued, in order. -/

/-- An encapsulated Linux file descriptor. -/
structure File where
  fd : Int
deriving DecidableEq, Repr

/-- Rust `File::from_raw_fd`: construct a `File` assuming ownership of an
externally obtained descriptor.  Issues no kernel call. -/
def File.from_raw_fd (fd : Int) : File := ⟨fd⟩

/-- Rust `File::close_mut`: issue `close` on the stored descriptor and decode
the raw result word with the standard decoder. -/
def File.close_mut (K : KernelCall → Nat) (f : File) :
    Except Error Unit × List KernelCall :=
  let result := K (KernelCall.close f.fd)
  (match unpack_standard_result result with
   | .ok _ => .ok ()
   | .error e => .error (Error.new e),
   [KernelCall.close f.fd])

/-- Rust `Drop for File`: calls `close_mut` and discards its result
(`#[allow(unused_must_use)]`). -/
def File.drop (K : KernelCall → Nat) (f : File) :
    Unit × List KernelCall :=
  ((), (File.close_mut K f).2)

/-- Rust `File::close`: calls `close_mut` on `self` and returns its
result.  The body takes `self` by value and contains no `mem::forget`,
so `self` is dropped when the body ends, running `Drop for File` and
issuing the `close` call a second time; the surfaced result is the one
from the explicit `close_mut` call. -/
def File.close (K : KernelCall → Nat) (f : File) :
    Except Error Unit × List KernelCall :=
  let r := File.close_mut K f
  let d := File.drop K f
  (r.1, r.2 ++ d.2)

/-- Rust `IntoRawFd::into_raw_fd`: reads the raw descriptor out of
`self` and returns it.  The body takes `self` by value and contains no
`mem::forget`, so `self` is dropped when the body ends, running
`Drop for File` and issuing a `close` call on the very descriptor
being returned. -/
def File.into_raw_fd (K : KernelCall → Nat) (f : File) :
    Int × List KernelCall :=
  let fd := f.fd
  let d := File.drop K f
  (fd, d.2)

/-- Rust `File::read`: issue `read` with the buffer length, decode the raw
word, and return the transferred count (`v as usize`, the identity on a
64-bit platform). -/
def File.read (K : KernelCall → Nat) (f : File) (bufLen : Nat) :
    Except Error Nat × List KernelCall :=
  let result := K (KernelCall.read f.fd bufLen)
  (match unpack_standard_result result with
   | .ok v => .ok v
   | .error e => .error (Error.new e),
   [KernelCall.read f.fd bufLen])

/-- Rust `File::write`: issue `write` with the buffer length, decode the raw
word, and return the accepted count. -/
def File.write (K : KernelCall → Nat) (f : File) (bufLen : Nat) :
    Except Error Nat × List KernelCall :=
  let result := K (KernelCall.write f.fd bufLen)
  (match unpack_standard_result result with
   | .ok v => .ok v
   | .error e => .error (Error.new e),
   [KernelCall.write f.fd bufLen])

/-! ## Seek (`File::seek`)

The source has two compile-time-selected realizations, chosen by
`#[cfg(target_pointer_width = "32")]`: on wide platforms `lseek` is
used directly; on 32-bit platforms `_llseek` is used, the 64-bit raw
offset split into high/low `ulong` halves and the resulting position
received through a `loff_t` out-parameter.  Each branch is embedded as
its own definition, mirroring the build-time (not run-time) selection. -/

/-- Rust `File::seek`, `#[cfg(not(target_pointer_width = "32"))]` branch:
issue `lseek(fd, raw_offs, raw_whence)` and decode the raw word with
the standard decoder; the success value (`v as u64`, the identity on a
wide platform) is the new absolute position. -/
def File.seek64 (K : KernelCall → Nat) (f : File) (pos : SeekFrom) :
    Except Error Nat × List KernelCall :=
  let raw_offs := pos.for_raw_offset
  let result := K (KernelCall.lseek f.fd raw_offs pos.for_raw_whence)
  (match unpack_standard_result result with
   | .ok v => .ok v
   | .error e => .error (Error.new e),
   [KernelCall.lseek f.fd raw_offs pos.for_raw_whence])

/-- Modelled from the spec: the standard result decoder of a 32-bit
architecture.  Only the riscv64 decoder is among the source files; per
the spec the decoder of every architecture classifies a raw word whose
native-signed reinterpretation lies in `[-4095, -1]` as a failure
carrying the negated magnitude, and any other word as success
unchanged.  Here the native width is 32 bits. -/
def unpack_standard_result32 (raw : Nat) : Except Int Nat :=
  if 2 ^ 32 - 4095 ≤ raw then Except.error ((2 ^ 32 : Int) - (raw : Int))
  else Except.ok raw

/-- Rust `File::seek`, `#[cfg(target_pointer_width = "32")]` branch: split
the raw 64-bit offset into high/low halves
(`(raw_offs as u64) >> 32` and `(raw_offs as u64) as ulong`), issue
`_llseek(fd, high, low, &result, uwhence)`, decode the status word with
the (32-bit) standard decoder, and on success return the `loff_t`
written through the out-parameter, cast `as u64` — not the status word.
`Kout` gives the value the kernel writes through the out-parameter. -/
def File.seek32 (K : KernelCall → Nat) (Kout : KernelCall → Int)
    (f : File) (pos : SeekFrom) :
    Except Error Nat × List KernelCall :=
  let raw_offs := pos.for_raw_offset
  let raw_offs_high := u64OfI64 raw_offs / 2 ^ 32
  let raw_offs_low := u64OfI64 raw_offs % 2 ^ 32
  let call := KernelCall.llseek f.fd raw_offs_high raw_offs_low pos.for_raw_uwhence
  let status := K call
  (match unpack_standard_result32 status with
   | .ok _ => .ok (u64OfI64 (Kout call))
   | .error e => .error (Error.new e),
   [call])

/-! ## Call invocation layer (`raw/riscv64.rs`, `syscall0` … `syscall6`)

Each wrapper is one `ecall` with the riscv64 kernel-entry convention:
the call number in register `a7` (`in("a7") n`), argument `i` in
register `a`*i* (`in`/`inout`), and the raw result word read back from
`a0`.  We model the argument registers as an explicit register file;
the kernel is an oracle from the register file it observes to the raw
result word it leaves in `a0`.  Registers the `asm!` block does not
bind keep whatever value they had before the call (`init`). -/

/-- The riscv64 argument registers visible to the kernel across an
`ecall`: `a0`–`a5` carry arguments, `a7` the call number. -/
structure Regs where
  a0 : Nat
  a1 : Nat
  a2 : Nat
  a3 : Nat
  a4 : Nat
  a5 : Nat
  a7 : Nat
deriving DecidableEq, Repr

/-- The register the riscv64 convention assigns to argument position
`i` (0-based): `a0` … `a5`. -/
def Regs.arg (r : Regs) : Nat → Nat
  | 0 => r.a0
  | 1 => r.a1
  | 2 => r.a2
  | 3 => r.a3
  | 4 => r.a4
  | 5 => r.a5
  | _ => 0

/-- Rust `syscall0`: `in("a7") n, out("a0") ret`. -/
def syscall0 (kernel : Regs → Nat) (init : Regs) (n : Nat) : Nat :=
  kernel { init with a7 := n }

/-- Rust `syscall1`: `in("a7") n, inout("a0") a0 => ret`. -/
def syscall1 (kernel : Regs → Nat) (init : Regs) (n a0 : Nat) : Nat :=
  kernel { init with a7 := n, a0 := a0 }

/-- Rust `syscall2`: additionally `in("a1") a1`. -/
def syscall2 (kernel : Regs → Nat) (init : Regs) (n a0 a1 : Nat) : Nat :=
  kernel { init with a7 := n, a0 := a0, a1 := a1 }

/-- Rust `syscall3`: additionally `in("a2") a2`. -/
def syscall3 (kernel : Regs → Nat) (init : Regs) (n a0 a1 a2 : Nat) : Nat :=
  kernel { init with a7 := n, a0 := a0, a1 := a1, a2 := a2 }

/-- Rust `syscall4`: additionally `in("a3") a3`. -/
def syscall4 (kernel : Regs → Nat) (init : Regs) (n a0 a1 a2 a3 : Nat) : Nat :=
  kernel { init with a7 := n, a0 := a0, a1 := a1, a2 := a2, a3 := a3 }

/-- Rust `syscall5`: additionally `in("a4") a4`. -/
def syscall5 (kernel : Regs → Nat) (init : Regs) (n a0 a1 a2 a3 a4 : Nat) : Nat :=
  kernel { init with a7 := n, a0 := a0, a1 := a1, a2 := a2, a3 := a3, a4 := a4 }

/-- Rust `syscall6`: additionally `in("a5") a5`. -/
def syscall6 (kernel : Regs → Nat) (init : Regs) (n a0 a1 a2 a3 a4 a5 : Nat) : Nat :=
  kernel { init with a7 := n, a0 := a0, a1 := a1, a2 := a2, a3 := a3, a4 := a4, a5 := a5 }

/-! ## Helper lemmas -/

/-- Splitting a word into its high 32 bits and low 32 bits and
recombining with shift-left and bitwise-or restores the word. -/
theorem shiftLeft_or_split (x : Nat) :
    (x / 2 ^ 32) <<< 32 ||| x % 2 ^ 32 = x := by
  apply Nat.eq_of_testBit_eq
  intro i
  rw [Nat.testBit_lor, Nat.testBit_shiftLeft, Nat.testBit_mod_two_pow,
    ← Nat.shiftRight_eq_div_pow, Nat.testBit_shiftRight]
  by_cases h : i < 32
  · simp [h, Nat.not_le.mpr h]
  · have h32 : 32 ≤ i := Nat.le_of_not_lt h
    simp [h32, Nat.not_lt.mpr h32, Nat.add_sub_cancel' h32]

/-- The cast `u64OfI64` always lands in the unsigned 64-bit range. -/
theorem u64OfI64_lt (x : Int) : u64OfI64 x < 2 ^ 64 := by
  unfold u64OfI64
  omega

/-! ## Claim theorems -/

/-- C1: for every raw result word `w` below `2 ^ 64`, if `w`
reinterpreted as a signed 64-bit value lies in `[-4095, -1]` then the
decoder returns failure carrying the error code equal to the magnitude
of `w` (so `-1` decodes to error `1` and `-4095` to error `4095`); for
every other word — including `0`, the maximum positive value and the
word representing `-4096` — it returns success with the word
unchanged. -/
theorem unpack_standard_result_spec (raw : Nat) (hraw : raw < 2 ^ 64) :
    ((-4095 ≤ i64OfU64 raw ∧ i64OfU64 raw ≤ -1) →
      unpack_standard_result raw = Except.error (-(i64OfU64 raw))) ∧
    ((i64OfU64 raw < -4095 ∨ 0 ≤ i64OfU64 raw) →
      unpack_standard_result raw = Except.ok raw) := by
  have hmod : raw % 2 ^ 64 = raw := Nat.mod_eq_of_lt hraw
  constructor
  · rintro ⟨h1, h2⟩
    have hge : 2 ^ 64 - 4095 ≤ raw := by
      unfold i64OfU64 at h1 h2
      rw [hmod] at h1 h2
      split at h1 <;> omega
    have herr : i32Neg (i32OfU64 raw) = -(i64OfU64 raw) := by
      unfold i32Neg i32OfU64 i64OfU64
      rw [hmod]
      split <;> split <;> omega
    rw [unpack_standard_result, if_pos hge, herr]
  · intro h
    have hlt : ¬ (2 ^ 64 - 4095 ≤ raw) := by
      unfold i64OfU64 at h
      rw [hmod] at h
      rcases h with h | h
      · split at h <;> omega
      · split at h <;> omega
    rw [unpack_standard_result, if_neg hlt]

/-- Witness for C1 at the concrete boundary words `-1` (error `1`),
`-4095` (error `4095`) and `-4096` (success, unchanged). -/
theorem unpack_standard_result_spec_witness :
    unpack_standard_result (2 ^ 64 - 1) = Except.error 1 ∧
    unpack_standard_result (2 ^ 64 - 4095) = Except.error 4095 ∧
    unpack_standard_result (2 ^ 64 - 4096) = Except.ok (2 ^ 64 - 4096) := by
  refine ⟨?_, ?_, ?_⟩
  · have h := (unpack_standard_result_spec (2 ^ 64 - 1) (by norm_num)).1
    have hi : i64OfU64 (2 ^ 64 - 1) = -1 := rfl
    rw [hi] at h
    simpa using h (by norm_num)
  · have h := (unpack_standard_result_spec (2 ^ 64 - 4095) (by norm_num)).1
    have hi : i64OfU64 (2 ^ 64 - 4095) = -4095 := rfl
    rw [hi] at h
    simpa using h (by norm_num)
  · have h := (unpack_standard_result_spec (2 ^ 64 - 4096) (by norm_num)).2
    have hi : i64OfU64 (2 ^ 64 - 4096) = -4096 := rfl
    rw [hi] at h
    exact h (by norm_num)

/-- C8: every error code the decoder emits lies in `[1, 4095]`; hence
every `Error` produced from a decoder result carries a code of
magnitude at most `4095`. -/
theorem unpack_error_code_range (raw : Nat) (e : Int) (hraw : raw < 2 ^ 64)
    (h : unpack_standard_result raw = Except.error e) :
    1 ≤ e ∧ e ≤ 4095 ∧ (Error.new e).raw = e := by
  unfold unpack_standard_result at h
  split at h
  case isTrue hge =>
    have he : e = i32Neg (i32OfU64 raw) := by
      cases h
      rfl
    subst he
    unfold i32Neg i32OfU64
    refine ⟨?_, ?_, rfl⟩ <;> split <;> omega
  case isFalse => cases h

/-- Witness for C8 at the concrete raw word representing `-42`. -/
theorem unpack_error_code_range_witness :
    (1 : Int) ≤ 42 ∧ (42 : Int) ≤ 4095 ∧ (Error.new 42).raw = 42 := by
  have hd : unpack_standard_result (2 ^ 64 - 42) = Except.error 42 := rfl
  exact unpack_error_code_range (2 ^ 64 - 42) 42 (by norm_num) hd

/-- C2 (code bug): adopting a raw descriptor and then releasing it
does return exactly that descriptor, but the release path issues a
`close` kernel call on it — `into_raw_fd(self)` contains no
`mem::forget`, so dropping `self` at the end of the body closes the
descriptor, contradicting the documented contract that release
relinquishes ownership without closing. -/
theorem into_raw_fd_closes (fd : Int) (K : KernelCall → Nat) :
    (File.into_raw_fd K (File.from_raw_fd fd)).1 = fd ∧
    (File.into_raw_fd K (File.from_raw_fd fd)).2 = [KernelCall.close fd] :=
  ⟨rfl, rfl⟩

/-- C10: for every `u64` payload `v` with `2 ^ 63 ≤ v < 2 ^ 64`,
`SeekFrom.Start v` converts to the negative raw signed 64-bit offset
`v - 2 ^ 64` (two's-complement reinterpretation); no range check is
performed. -/
theorem for_raw_offset_start_wraps (v : Nat) (h1 : 2 ^ 63 ≤ v)
    (h2 : v < 2 ^ 64) :
    SeekFrom.for_raw_offset (SeekFrom.Start v) = (v : Int) - 2 ^ 64 ∧
    SeekFrom.for_raw_offset (SeekFrom.Start v) < 0 := by
  have hmod : v % 2 ^ 64 = v := Nat.mod_eq_of_lt h2
  simp only [SeekFrom.for_raw_offset]
  unfold i64OfU64
  rw [hmod, if_neg (by omega)]
  omega

/-- Witness for C10 at `v = 2 ^ 63`. -/
theorem for_raw_offset_start_wraps_witness :
    SeekFrom.for_raw_offset (SeekFrom.Start (2 ^ 63)) = -(2 ^ 63) ∧
    SeekFrom.for_raw_offset (SeekFrom.Start (2 ^ 63)) < 0 := by
  have h := for_raw_offset_start_wraps (2 ^ 63) (by norm_num) (by norm_num)
  exact ⟨by rw [h.1]; norm_num, h.2⟩

/-- C5 (code bug): explicit `close` issues the `close` kernel call on
the stored descriptor twice, not exactly once — `close(mut self)` calls
`close_mut` and then, lacking a `mem::forget`, drops `self`, whose
`Drop` impl calls `close_mut` again.  The result surfaced to the caller
is the first call's decoded result. -/
theorem close_issues_twice (f : File) (K : KernelCall → Nat) :
    (File.close K f).2 = [KernelCall.close f.fd, KernelCall.close f.fd] ∧
    (File.close K f).2.count (KernelCall.close f.fd) = 2 ∧
    (File.close K f).1 = (File.close_mut K f).1 := by
  refine ⟨rfl, ?_, rfl⟩
  show List.count (KernelCall.close f.fd)
    [KernelCall.close f.fd, KernelCall.close f.fd] = 2
  simp

/-- Counterexample to C6 as stated: on a concrete `File` the trace of
the implicit destruction path (one `close` call) differs from the trace
of explicit `close` (two `close` calls, because of the missing
`mem::forget`). -/
theorem drop_close_traces_differ :
    (File.drop (fun _ => 0) ⟨3⟩).2 = [KernelCall.close 3] ∧
    (File.close (fun _ => 0) ⟨3⟩).2 =
      [KernelCall.close 3, KernelCall.close 3] ∧
    (File.drop (fun _ => 0) ⟨3⟩).2 ≠ (File.close (fun _ => 0) ⟨3⟩).2 := by
  refine ⟨rfl, rfl, ?_⟩
  decide

/-- C6 (amended): implicit destruction issues exactly one `close`
kernel call on the stored descriptor — the same call `close_mut`
issues, repeated twice by the explicit `close` path — and discards its
result: the caller observes only `()` whatever the kernel answers. -/
theorem drop_single_close_discards (f : File) (K : KernelCall → Nat) :
    (File.drop K f).2 = [KernelCall.close f.fd] ∧
    (File.drop K f).2 = (File.close_mut K f).2 ∧
    (File.close K f).2 = (File.drop K f).2 ++ (File.drop K f).2 ∧
    (File.drop K f).1 = () :=
  ⟨rfl, rfl, rfl, rfl⟩

/-- C4: `read` and `write` return success with exactly the count the
decoder reports — for any count, including `0` and counts smaller than
the buffer length — and return an error exactly when the raw result
word decodes to a kernel error code. -/
theorem read_write_counts (f : File) (K : KernelCall → Nat) (bufLen : Nat) :
    (∀ v, unpack_standard_result (K (KernelCall.read f.fd bufLen)) = Except.ok v →
      (File.read K f bufLen).1 = Except.ok v) ∧
    (∀ e, unpack_standard_result (K (KernelCall.read f.fd bufLen)) = Except.error e →
      (File.read K f bufLen).1 = Except.error (Error.new e)) ∧
    (∀ v, unpack_standard_result (K (KernelCall.write f.fd bufLen)) = Except.ok v →
      (File.write K f bufLen).1 = Except.ok v) ∧
    (∀ e, unpack_standard_result (K (KernelCall.write f.fd bufLen)) = Except.error e →
      (File.write K f bufLen).1 = Except.error (Error.new e)) := by
  refine ⟨?_, ?_, ?_, ?_⟩ <;> intro x hx
  · simp only [File.read]
    rw [hx]
  · simp only [File.read]
    rw [hx]
  · simp only [File.write]
    rw [hx]
  · simp only [File.write]
    rw [hx]

/-- Witness for C4: a kernel answering raw word `0` on a 10-byte
request yields success with count `0` (end-of-stream, smaller than the
buffer length), for both `read` and `write`. -/
theorem read_write_counts_witness :
    (File.read (fun _ => 0) ⟨3⟩ 10).1 = Except.ok 0 ∧ (0 : Nat) < 10 ∧
    (File.write (fun _ => 0) ⟨3⟩ 10).1 = Except.ok 0 := by
  have h := read_write_counts ⟨3⟩ (fun _ => 0) 10
  exact ⟨h.1 0 rfl, by norm_num, h.2.2.1 0 rfl⟩

/-- C7: each `SeekFrom` variant converts to its origin code (`Start` to
`SEEK_SET`, `End` to `SEEK_END`, `Current` to `SEEK_CUR`) together with
its payload converted to a signed 64-bit raw offset: for `End` and
`Current` the payload itself, for `Start` the value congruent to the
`u64` payload modulo `2 ^ 64` lying in the signed 64-bit range. -/
theorem seekfrom_conversion (s : SeekFrom) :
    (∀ v, s = SeekFrom.Start v → s.for_raw_whence = SEEK_SET ∧
      (v < 2 ^ 64 → s.for_raw_offset % 2 ^ 64 = (v : Int) % 2 ^ 64 ∧
        -2 ^ 63 ≤ s.for_raw_offset ∧ s.for_raw_offset < 2 ^ 63)) ∧
    (∀ v, s = SeekFrom.End v → s.for_raw_whence = SEEK_END ∧
      s.for_raw_offset = v) ∧
    (∀ v, s = SeekFrom.Current v → s.for_raw_whence = SEEK_CUR ∧
      s.for_raw_offset = v) := by
  refine ⟨?_, ?_, ?_⟩ <;> rintro v rfl
  · refine ⟨rfl, fun hv => ?_⟩
    have hmod : v % 2 ^ 64 = v := Nat.mod_eq_of_lt hv
    simp only [SeekFrom.for_raw_offset]
    unfold i64OfU64
    rw [hmod]
    split <;> omega
  · exact ⟨rfl, rfl⟩
  · exact ⟨rfl, rfl⟩

/-- Witness for C7 at `Start 7`: origin code `SEEK_SET`, raw offset
`7`. -/
theorem seekfrom_conversion_witness :
    SeekFrom.for_raw_whence (SeekFrom.Start 7) = SEEK_SET ∧
    SeekFrom.for_raw_offset (SeekFrom.Start 7) = 7 := by
  have h := (seekfrom_conversion (SeekFrom.Start 7)).1 7 rfl
  have h2 := h.2 (by norm_num)
  exact ⟨h.1, by omega⟩

/-- C9: each of `syscall0` … `syscall6` presents the kernel with a
register file holding the call number in `a7` and argument `i` in the
register the riscv64 convention assigns to position `i`, and returns
exactly the raw result word the kernel produced, unmodified. -/
theorem syscall_slots (kernel : Regs → Nat) (init : Regs)
    (n a0 a1 a2 a3 a4 a5 : Nat) :
    (∃ r, syscall0 kernel init n = kernel r ∧ r.a7 = n) ∧
    (∃ r, syscall1 kernel init n a0 = kernel r ∧ r.a7 = n ∧
      r.arg 0 = a0) ∧
    (∃ r, syscall2 kernel init n a0 a1 = kernel r ∧ r.a7 = n ∧
      r.arg 0 = a0 ∧ r.arg 1 = a1) ∧
    (∃ r, syscall3 kernel init n a0 a1 a2 = kernel r ∧ r.a7 = n ∧
      r.arg 0 = a0 ∧ r.arg 1 = a1 ∧ r.arg 2 = a2) ∧
    (∃ r, syscall4 kernel init n a0 a1 a2 a3 = kernel r ∧ r.a7 = n ∧
      r.arg 0 = a0 ∧ r.arg 1 = a1 ∧ r.arg 2 = a2 ∧ r.arg 3 = a3) ∧
    (∃ r, syscall5 kernel init n a0 a1 a2 a3 a4 = kernel r ∧ r.a7 = n ∧
      r.arg 0 = a0 ∧ r.arg 1 = a1 ∧ r.arg 2 = a2 ∧ r.arg 3 = a3 ∧
      r.arg 4 = a4) ∧
    (∃ r, syscall6 kernel init n a0 a1 a2 a3 a4 a5 = kernel r ∧ r.a7 = n ∧
      r.arg 0 = a0 ∧ r.arg 1 = a1 ∧ r.arg 2 = a2 ∧ r.arg 3 = a3 ∧
      r.arg 4 = a4 ∧ r.arg 5 = a5) := by
  refine ⟨⟨_, rfl, rfl⟩, ⟨_, rfl, rfl, rfl⟩, ⟨_, rfl, rfl, rfl, rfl⟩,
    ⟨_, rfl, rfl, rfl, rfl, rfl⟩, ⟨_, rfl, rfl, rfl, rfl, rfl, rfl⟩,
    ⟨_, rfl, rfl, rfl, rfl, rfl, rfl, rfl⟩,
    ⟨_, rfl, rfl, rfl, rfl, rfl, rfl, rfl, rfl⟩⟩

/-- C3: the wide-platform `seek` returns the decoded `lseek` result
word as the new position; the narrow-platform `seek` issues the
wide-offset `_llseek` call with the 64-bit raw offset split into high
and low halves whose recombination (high shifted left 32 bits, or'ed
with low) equals the original 64-bit offset, and on success returns the
64-bit position read from the out-parameter — not the status word —
always an unsigned 64-bit value.  The two variants are separate
definitions, selected per target, never by a run-time branch. -/
theorem seek_variants (f : File) (pos : SeekFrom)
    (K : KernelCall → Nat) (Kout : KernelCall → Int) :
    (∀ v, unpack_standard_result
        (K (KernelCall.lseek f.fd pos.for_raw_offset pos.for_raw_whence)) =
          Except.ok v →
      (File.seek64 K f pos).1 = Except.ok v) ∧
    (File.seek32 K Kout f pos).2 =
      [KernelCall.llseek f.fd (u64OfI64 pos.for_raw_offset / 2 ^ 32)
        (u64OfI64 pos.for_raw_offset % 2 ^ 32) pos.for_raw_uwhence] ∧
    ((u64OfI64 pos.for_raw_offset / 2 ^ 32) <<< 32 |||
        u64OfI64 pos.for_raw_offset % 2 ^ 32) = u64OfI64 pos.for_raw_offset ∧
    (∀ v, unpack_standard_result32
        (K (KernelCall.llseek f.fd (u64OfI64 pos.for_raw_offset / 2 ^ 32)
          (u64OfI64 pos.for_raw_offset % 2 ^ 32) pos.for_raw_uwhence)) =
          Except.ok v →
      (File.seek32 K Kout f pos).1 =
        Except.ok (u64OfI64 (Kout (KernelCall.llseek f.fd
          (u64OfI64 pos.for_raw_offset / 2 ^ 32)
          (u64OfI64 pos.for_raw_offset % 2 ^ 32) pos.for_raw_uwhence)))) ∧
    (∀ p, (File.seek32 K Kout f pos).1 = Except.ok p → p < 2 ^ 64) := by
  refine ⟨?_, rfl, shiftLeft_or_split _, ?_, ?_⟩
  · intro v hv
    simp only [File.seek64]
    rw [hv]
  · intro v hv
    simp only [File.seek32]
    rw [hv]
  · intro p hp
    simp only [File.seek32] at hp
    split at hp
    · cases hp
      exact u64OfI64_lt _
    · cases hp

/-- Witness for C3 with a kernel answering status `0` and writing
position `9` through the out-parameter. -/
theorem seek_variants_witness :
    (File.seek64 (fun _ => 0) ⟨3⟩ (SeekFrom.Start 5)).1 = Except.ok 0 ∧
    (File.seek32 (fun _ => 0) (fun _ => 9) ⟨3⟩ (SeekFrom.Start 5)).1 =
      Except.ok 9 := by
  have h := seek_variants ⟨3⟩ (SeekFrom.Start 5) (fun _ => 0) (fun _ => 9)
  refine ⟨h.1 0 rfl, ?_⟩
  have h4 := h.2.2.2.1 0 rfl
  simpa [u64OfI64] using h4

end LinuxSafe
